import Mathlib

/-!
Verification development for the melodic-salutations voice-greeting bot.

The definitions below are a shallow embedding of the Go source:
  - src/internal/greeter/greeter.go : guild playback queue (guildPlayer,
    voiceUpdate's enqueue step, playAudio), the pagination / multi-select
    component handler (messageComponentHandler), and
    retrieveRandomAudioName;
  - src/pkg/util/io.go : Unzip and its zip-slip check.

Go ints are modelled as Int, Go slices as List, nil-able values as Option,
Firestore documents as association lists, and runtime panics as an explicit
outcome constructor.
-/

/-- voiceState (greeter.go 48-53): PLAYING / NOT_PLAYING. -/
inductive VoiceState where
  | playing
  | notPlaying
deriving DecidableEq, Repr, BEq

/-- guildPlayer (greeter.go 62-68): per-guild queue of staged audio file paths
plus the playback state flag.  The voiceClient pointer is modelled by a Bool
recording whether it is non-nil. -/
structure GuildPlayer where
  queue : List String
  voiceState : VoiceState
  hasVoiceClient : Bool
deriving DecidableEq, Repr

/-- The enqueue step of voiceUpdate (greeter.go 372-378): append the staged
file path to the guild queue, then send a ready signal on songSignal iff the
guild voiceState reads NotPlaying.  The returned Bool records whether the
signal was sent. -/
def enqueueVoiceline (gp : GuildPlayer) (filePath : String) : GuildPlayer × Bool :=
  let gp2 : GuildPlayer := { gp with queue := gp.queue ++ [filePath] }
  (gp2, gp2.voiceState == VoiceState.notPlaying)

/-- How one playAudio invocation ends (greeter.go 447-473): dca.EncodeFile
fails (447), or the done channel yields io.EOF (461), a non-EOF error (467),
or a nil value (470). -/
inductive PlayOutcome where
  | encodeFailed
  | eof
  | streamFailed
  | nilCompletion
deriving DecidableEq, Repr

/-- Observable effects of one playAudio invocation: the updated guild player,
whether it re-sent a songSignal, how many times the staged file was deleted,
which track (if any) was dequeued, which track (if any) was handed to the
encoder/stream, and whether the invocation ever returns (the deferred file
deletion runs exactly when it does). -/
structure PlayResult where
  player : GuildPlayer
  resignal : Bool
  deleteCount : Nat
  dequeued : Option String
  streamed : Option String
  returned : Bool
deriving DecidableEq, Repr

/-- playAudio (greeter.go 426-474).  Guard: return at once when voiceClient is
nil or the queue is empty (427).  Otherwise mark Playing and pop the queue
head (431-435) and register the deferred file deletion (437-441).  On encode
failure the function returns (447-451), so the deferred delete runs once and
the track is never streamed.  Every other completion arrives on doneChan
inside the for-range loop (459-473): the body handles the single value dca
ever sends (on io.EOF re-signal when the queue is non-empty, else set
NotPlaying, 461-466; other completions only log, 467-472), but dca never
closes the channel, so the range then blocks forever: the invocation never
returns and the deferred delete never executes on those paths. -/
def playAudio (gp : GuildPlayer) (outcome : PlayOutcome) : PlayResult :=
  match gp.hasVoiceClient, gp.queue with
  | false, _ => ⟨gp, false, 0, none, none, true⟩
  | true, [] => ⟨gp, false, 0, none, none, true⟩
  | true, audioPath :: rest =>
    let playing : GuildPlayer := ⟨rest, VoiceState.playing, true⟩
    match outcome with
    | PlayOutcome.encodeFailed => ⟨playing, false, 1, some audioPath, none, true⟩
    | PlayOutcome.eof =>
      if 0 < rest.length then
        ⟨playing, true, 0, some audioPath, some audioPath, false⟩
      else
        ⟨⟨rest, VoiceState.notPlaying, true⟩, false, 0, some audioPath, some audioPath, false⟩
    | PlayOutcome.streamFailed => ⟨playing, false, 0, some audioPath, some audioPath, false⟩
    | PlayOutcome.nilCompletion => ⟨playing, false, 0, some audioPath, some audioPath, false⟩

/-- A trace state for one guild: the player together with ledgers of every
track ever enqueued, dequeued, and streamed, in order. -/
structure GuildTrace where
  player : GuildPlayer
  enqueuedLog : List String
  dequeuedLog : List String
  streamedLog : List String
deriving DecidableEq, Repr

/-- Operations interleaved on one guild: an enqueue from voiceUpdate, or one
playback-worker invocation finishing with the given outcome. -/
inductive GuildOp where
  | enqueueOp (filePath : String)
  | workerRun (outcome : PlayOutcome)
deriving DecidableEq, Repr

/-- One step of the per-guild playback system, with ledgers updated. -/
def guildStep (t : GuildTrace) (op : GuildOp) : GuildTrace :=
  match op with
  | GuildOp.enqueueOp p =>
    let r := enqueueVoiceline t.player p
    ⟨r.1, t.enqueuedLog ++ [p], t.dequeuedLog, t.streamedLog⟩
  | GuildOp.workerRun outcome =>
    let r := playAudio t.player outcome
    ⟨r.player, t.enqueuedLog, t.dequeuedLog ++ r.dequeued.toList,
      t.streamedLog ++ r.streamed.toList⟩

/-- A guild as first created by voiceUpdate (greeter.go 339-344): empty queue,
NotPlaying, live voice connection. -/
def initialGuildTrace : GuildTrace :=
  ⟨⟨[], VoiceState.notPlaying, true⟩, [], [], []⟩

/-- The four pagination buttons (CustomIDs first/last/prev/next,
greeter.go 905-921). -/
inductive PageAction where
  | first
  | last
  | prev
  | next
deriving DecidableEq, Repr, BEq

/-- paginationState (greeter.go 55-60).  Each page is represented by the
number of embed Fields it holds (all the component handler reads from a
page); SelectMenuData is nil or the list of selectable track names;
SelectMenuBound is the exclusive upper bound of the displayed window. -/
structure PaginationState where
  currentPage : Int
  pageFieldCounts : List Nat
  selectMenuData : Option (List String)
  selectMenuBound : Int
deriving DecidableEq, Repr

/-- The currentPage update of messageComponentHandler (greeter.go 906-921):
first sets 0, last sets len-1, prev decrements wrapping below 0 to len-1,
next increments wrapping at len to 0. -/
def navigatePage (numPages : Int) (currentPage : Int) : PageAction → Int
  | PageAction.first => 0
  | PageAction.last => numPages - 1
  | PageAction.prev => if currentPage - 1 < 0 then numPages - 1 else currentPage - 1
  | PageAction.next => if currentPage + 1 ≥ numPages then 0 else currentPage + 1

/-- len(state.Pages[i].Fields) as read by the handler; out-of-range indices
(never reached under the proved invariants) give 0. -/
def pageFieldsAt (counts : List Nat) (i : Int) : Int :=
  (counts.getD i.toNat 0 : Nat)

/-- The select-menu window recomputation (greeter.go 1041-1067), run after the
currentPage update: on page 0 show the first min(4,total) items; on the last
page show the final stretch sized by that page's field count; moving forward
slide from the stored bound; otherwise slide back by the field count of the
page after the (new) current page.  Finally clamp the upper bound to total
(1065-1067).  Returns (minBound, maxBound). -/
def selectMenuWindow (counts : List Nat) (totalItems : Int) (currentPage : Int)
    (forwardPressed : Bool) (bound : Int) : Int × Int :=
  let itemsPerPage : Int := 4
  let numPages : Int := counts.length
  let mm : Int × Int :=
    if currentPage = 0 then
      (0, min itemsPerPage totalItems)
    else if currentPage = numPages - 1 then
      (max 0 (totalItems - pageFieldsAt counts currentPage), totalItems)
    else if forwardPressed then
      (bound, min (bound + itemsPerPage) totalItems)
    else
      let fieldsInPageAfter := pageFieldsAt counts (currentPage + 1)
      (bound - fieldsInPageAfter - 4, bound - fieldsInPageAfter)
  (mm.1, if mm.2 > totalItems then totalItems else mm.2)

/-- Result of one button press on a paginated message: the updated state and,
when a select menu is attached, the rendered window bounds. -/
structure ComponentStepResult where
  state : PaginationState
  window : Option (Int × Int)
deriving DecidableEq, Repr

/-- One pagination-button step of messageComponentHandler: update currentPage
(906-921, forwardButtonPressed set only by next), then, when SelectMenuData is
non-nil, recompute the window and store its upper bound in SelectMenuBound
(1029-1074). -/
def messageComponentStep (st : PaginationState) (a : PageAction) : ComponentStepResult :=
  let cp := navigatePage st.pageFieldCounts.length st.currentPage a
  let forwardPressed := a == PageAction.next
  match st.selectMenuData with
  | none => ⟨{ st with currentPage := cp }, none⟩
  | some items =>
    let w := selectMenuWindow st.pageFieldCounts items.length cp forwardPressed
      st.selectMenuBound
    ⟨{ st with currentPage := cp, selectMenuBound := w.2 }, some w⟩

/-- g.messageStore lookup (greeter.go 904), the message-keyed map modelled as
an association list. -/
def lookupMessage (store : List (String × PaginationState)) (msgID : String) :
    Option PaginationState :=
  (store.find? (fun e => e.1 == msgID)).map (fun e => e.2)

/-- messageComponentHandler on a pagination button (greeter.go 891-1096).
When the message id has a registered state, the state is stepped and the page
at the new currentPage is rendered back to the user (second component: the
rendered page index).  When no state exists, the surrounding if-statement has
no else branch: the handler returns with the store untouched and sends no
interaction response at all (second component none). -/
def handleMessageComponent (store : List (String × PaginationState)) (msgID : String)
    (a : PageAction) : List (String × PaginationState) × Option Int :=
  match lookupMessage store msgID with
  | none => (store, none)
  | some st =>
    let r := messageComponentStep st a
    (store.map (fun e => if e.1 == msgID then (e.1, r.state) else e),
      some r.state.currentPage)

/-- Collection and array-key constants (greeter.go 31-38). -/
def WelcomeCollection : String := "welcomeIntros"

/-- byeOutros collection name (greeter.go 33). -/
def OutroCollection : String := "byeOutros"

/-- intro_array document key (greeter.go 35). -/
def IntroArrayKey : String := "intro_array"

/-- outro_array document key (greeter.go 36). -/
def OutroArrayKey : String := "outro_array"

/-- A Firestore field value as seen through map[string]interface -- an array,
a nested record map, a string, or anything else. -/
inductive FireVal where
  | arr (elems : List FireVal)
  | rmap (fields : List (String × FireVal))
  | fstr (s : String)
  | other

/-- Outcome of a Go call: a normal value, an error return (notFound true for a
gRPC NotFound), or a runtime panic. -/
inductive GoOutcome (α : Type) where
  | ok (val : α)
  | err (notFound : Bool)
  | panicked
deriving DecidableEq, Repr

/-- Go map indexing data[key] with the comma-ok form. -/
def lookupField (data : List (String × FireVal)) (key : String) : Option FireVal :=
  (data.find? (fun e => e.1 == key)).map (fun e => e.2)

/-- golang.org/x/exp/rand Intn(n): panics when n <= 0, otherwise returns a
pseudo-random value in [0, n); the generator draw is modelled by src. -/
def randIntn (src n : Nat) : GoOutcome Nat :=
  if n = 0 then GoOutcome.panicked else GoOutcome.ok (src % n)

/-- retrieveRandomAudioName (greeter.go 383-404).  Propagate a document-fetch
error (385-387); pick intro_array for the welcome collection and outro_array
otherwise (389-392); when the key holds an array, draw rand.Intn(len) -- a
panic when the array is empty -- and read track_name from the drawn record
with an unchecked string assertion (394-399), which panics when the field is
absent or not a string; every comma-ok fall-through returns ("", nil). -/
def retrieveRandomAudioName (getDocResult : GoOutcome (List (String × FireVal)))
    (collection : String) (src : Nat) : GoOutcome String :=
  match getDocResult with
  | GoOutcome.err nf => GoOutcome.err nf
  | GoOutcome.panicked => GoOutcome.panicked
  | GoOutcome.ok data =>
    let audioListKey := if collection == WelcomeCollection then IntroArrayKey
      else OutroArrayKey
    match lookupField data audioListKey with
    | some (FireVal.arr audioSlice) =>
      match randIntn src audioSlice.length with
      | GoOutcome.panicked => GoOutcome.panicked
      | GoOutcome.err nf => GoOutcome.err nf
      | GoOutcome.ok randomIndex =>
        match audioSlice.getD randomIndex FireVal.other with
        | FireVal.rmap recordMap =>
          match lookupField recordMap "track_name" with
          | some (FireVal.fstr trackName) => GoOutcome.ok trackName
          | _ => GoOutcome.panicked
        | _ => GoOutcome.ok ""
    | _ => GoOutcome.ok ""

/-- A Go path embedded as its slash-split components plus a rooted flag; path
strings are in bijection with this representation (components never contain
the separator), so strings.HasPrefix of rendered paths is reasoned about at
the component level below. -/
structure GoPath where
  rooted : Bool
  comps : List String
deriving DecidableEq, Repr

/-- The component pass of path/filepath.Clean: drop empty and dot components;
for dotdot, pop a preceding plain component, keep it after another dotdot,
and at the start drop it when rooted, keep it when relative; acc holds the
output so far, reversed. -/
def cleanComps (rooted : Bool) (acc : List String) : List String → List String
  | [] => acc.reverse
  | c :: rest =>
    if c = "" ∨ c = "." then cleanComps rooted acc rest
    else if c = ".." then
      match acc with
      | [] =>
        if rooted then cleanComps rooted [] rest
        else cleanComps rooted [".."] rest
      | a :: as =>
        if a = ".." then cleanComps rooted (".." :: a :: as) rest
        else cleanComps rooted as rest
    else cleanComps rooted (c :: acc) rest

/-- filepath.Clean at the component level. -/
def goClean (p : GoPath) : GoPath :=
  ⟨p.rooted, cleanComps p.rooted [] p.comps⟩

/-- filepath.Join(dest, name) (io.go 37): concatenate with a separator and
Clean.  A rooted name contributes a leading empty component, which Clean
drops, so at component level Join is Clean of the concatenation; the result
is rooted iff dest is. -/
def goJoin (dest : GoPath) (name : List String) : GoPath :=
  goClean ⟨dest.rooted, dest.comps ++ name⟩

/-- One archive entry: the slash-split entry name and whether it is a
directory entry. -/
structure ZipEntry where
  nameComps : List String
  isDir : Bool
deriving DecidableEq, Repr

/-- The zip-slip check (io.go 40): strings.HasPrefix(path, Clean(dest)+"/")
on the rendered strings.  Both strings are Clean outputs with the same
rootedness, so the check holds iff Clean(dest) has at least one component
(the rendered "/" or "." plus separator never prefixes a cleaned render) and
its components are a proper prefix of the path components. -/
def zipSlipCheck (cleanedDest : List String) (path : List String) : Bool :=
  decide (cleanedDest ≠ []) && cleanedDest.isPrefixOf path && decide (path ≠ cleanedDest)

/-- Unzip (io.go 14-84), reduced to the paths it creates: each entry is
extracted to filepath.Join(dest, entry name) (37); an entry failing the
zip-slip check returns an error (40-42) and is skipped by the caller loop
(74-78, continue); a directory entry only creates directories and returns an
error sentinel (44-47, 69), likewise skipped; the remaining entries are
opened at the joined path and returned (53-66, 80). -/
def unzipPaths (dest : GoPath) (entries : List ZipEntry) : List GoPath :=
  entries.filterMap (fun e =>
    let path := goJoin dest e.nameComps
    if zipSlipCheck (goClean dest).comps path.comps = false then none
    else if e.isDir then none
    else some path)

/-- Track names used in the concrete pagination scenario: 10 selectable
items. -/
def demoTrackNames : List String :=
  ["t1", "t2", "t3", "t4", "t5", "t6", "t7", "t8", "t9", "t10"]

/-- The pagination state the delete command registers for 10 tracks laid out
4 per page (embeds.go 136-146 chunks fields by 4; greeter.go 1270 sets the
initial bound to min(len,4); 1304-1309 stores the state). -/
def demoDeleteState : PaginationState :=
  ⟨0, [4, 4, 2], some demoTrackNames, 4⟩

/-- C3: page navigation computes first -> 0, last -> len-1, prev/next as
decrement/increment with wraparound, agreeing with (cp ± 1) mod len, keeping
currentPage inside [0, len); with 3 pages, prev from 0 gives 2 and next from
2 gives 0. -/
theorem page_navigation_mod (n cp : Int) (hn : 1 ≤ n) (h0 : 0 ≤ cp) (hlt : cp < n) :
    navigatePage n cp PageAction.first = 0 ∧
    navigatePage n cp PageAction.last = n - 1 ∧
    navigatePage n cp PageAction.prev = (cp - 1) % n ∧
    navigatePage n cp PageAction.next = (cp + 1) % n ∧
    (∀ a : PageAction, 0 ≤ navigatePage n cp a ∧ navigatePage n cp a < n) ∧
    navigatePage 3 0 PageAction.prev = 2 ∧ navigatePage 3 2 PageAction.next = 0 := by
  refine ⟨rfl, rfl, ?_, ?_, ?_, by decide, by decide⟩
  · show (if cp - 1 < 0 then n - 1 else cp - 1) = (cp - 1) % n
    by_cases h : cp - 1 < 0
    · have hcp : cp = 0 := by omega
      subst hcp
      rw [if_pos h]
      have h1 : (n - 1) % n = (0 - 1 : Int) % n := by
        have h2 := Int.add_mul_emod_self_left (a := (0 : Int) - 1) (b := n) (c := 1)
        rw [← h2]
        ring_nf
      have h3 : (n - 1) % n = n - 1 := Int.emod_eq_of_lt (by omega) (by omega)
      rw [← h1, h3]
    · rw [if_neg h, Int.emod_eq_of_lt (by omega) (by omega)]
  · show (if cp + 1 ≥ n then 0 else cp + 1) = (cp + 1) % n
    by_cases h : cp + 1 ≥ n
    · have hcp : cp + 1 = n := by omega
      rw [if_pos h, hcp, Int.emod_self]
    · rw [if_neg h, Int.emod_eq_of_lt (by omega) (by omega)]
  · intro a
    cases a <;> simp only [navigatePage] <;> omega

/-- Witness for page_navigation_mod at n = 3, cp = 1. -/
theorem page_navigation_mod_witness :
    navigatePage 3 1 PageAction.prev = (1 - 1) % 3 ∧
    navigatePage 3 1 PageAction.next = (1 + 1) % 3 :=
  ⟨(page_navigation_mod 3 1 (by decide) (by decide) (by decide)).2.2.1,
   (page_navigation_mod 3 1 (by decide) (by decide) (by decide)).2.2.2.1⟩

/-- C6: the enqueue step sends a ready signal iff the guild state was
NotPlaying at the call (enqueueing never changes the state, so the state read
after appending equals the state at call time); an enqueue on a Playing guild
sends no signal; the path is appended at the tail. -/
theorem enqueue_signal_iff_idle (gp : GuildPlayer) (filePath : String) :
    ((enqueueVoiceline gp filePath).2 = true ↔ gp.voiceState = VoiceState.notPlaying) ∧
    (gp.voiceState = VoiceState.playing → (enqueueVoiceline gp filePath).2 = false) ∧
    (enqueueVoiceline gp filePath).1.queue = gp.queue ++ [filePath] ∧
    (enqueueVoiceline gp filePath).1.voiceState = gp.voiceState := by
  cases h : gp.voiceState <;> simp_all [enqueueVoiceline] <;> rfl

/-- Witness for enqueue_signal_iff_idle on an idle and a playing guild. -/
theorem enqueue_signal_iff_idle_witness :
    ((enqueueVoiceline ⟨[], VoiceState.notPlaying, true⟩ "p").2 = true ↔
      (⟨[], VoiceState.notPlaying, true⟩ : GuildPlayer).voiceState = VoiceState.notPlaying) ∧
    ((⟨["q"], VoiceState.playing, true⟩ : GuildPlayer).voiceState = VoiceState.playing →
      (enqueueVoiceline ⟨["q"], VoiceState.playing, true⟩ "p").2 = false) :=
  ⟨(enqueue_signal_iff_idle ⟨[], VoiceState.notPlaying, true⟩ "p").1,
   (enqueue_signal_iff_idle ⟨["q"], VoiceState.playing, true⟩ "p").2.1⟩

/-- C5: evaluating the worker at a dequeued staged file shows the file is
deleted exactly once only on the encode-failure exit; on an end-of-stream,
stream-error, or nil completion the invocation never returns (the for-range
waits forever on the never-closed done channel), so the deferred delete never
runs and the staged file is not deleted at all, contradicting the claimed
deletion on every exit path. -/
theorem staged_file_never_deleted_on_stream_paths :
    (playAudio ⟨["x"], VoiceState.notPlaying, true⟩ PlayOutcome.encodeFailed).deleteCount = 1 ∧
    (playAudio ⟨["x"], VoiceState.notPlaying, true⟩ PlayOutcome.encodeFailed).returned = true ∧
    (playAudio ⟨["x"], VoiceState.notPlaying, true⟩ PlayOutcome.eof).deleteCount = 0 ∧
    (playAudio ⟨["x"], VoiceState.notPlaying, true⟩ PlayOutcome.eof).returned = false ∧
    (playAudio ⟨["x"], VoiceState.notPlaying, true⟩ PlayOutcome.streamFailed).deleteCount = 0 ∧
    (playAudio ⟨["x"], VoiceState.notPlaying, true⟩ PlayOutcome.streamFailed).returned = false ∧
    (playAudio ⟨["x"], VoiceState.notPlaying, true⟩ PlayOutcome.nilCompletion).deleteCount = 0 := by
  decide

/-- C7: on an end-of-stream completion the worker re-signals and the guild
stays Playing exactly when tracks remain queued, and otherwise marks the
guild NotPlaying without re-signaling; the two outcomes are mutually
exclusive and exhaustive. -/
theorem eof_completion_resignal_or_idle (gp : GuildPlayer) (audioPath : String)
    (rest : List String) (hq : gp.queue = audioPath :: rest) (hv : gp.hasVoiceClient = true) :
    (rest ≠ [] → (playAudio gp PlayOutcome.eof).resignal = true ∧
      (playAudio gp PlayOutcome.eof).player.voiceState = VoiceState.playing) ∧
    (rest = [] → (playAudio gp PlayOutcome.eof).resignal = false ∧
      (playAudio gp PlayOutcome.eof).player.voiceState = VoiceState.notPlaying) ∧
    ((playAudio gp PlayOutcome.eof).resignal = true ↔
      (playAudio gp PlayOutcome.eof).player.voiceState = VoiceState.playing) := by
  cases rest <;> simp [playAudio, hq, hv]

/-- Witness for eof_completion_resignal_or_idle with one pending track left. -/
theorem eof_completion_resignal_or_idle_witness :
    (["b"] ≠ ([] : List String) →
      (playAudio ⟨["a", "b"], VoiceState.playing, true⟩ PlayOutcome.eof).resignal = true ∧
      (playAudio ⟨["a", "b"], VoiceState.playing, true⟩ PlayOutcome.eof).player.voiceState
        = VoiceState.playing) ∧
    (["b"] = ([] : List String) →
      (playAudio ⟨["a", "b"], VoiceState.playing, true⟩ PlayOutcome.eof).resignal = false ∧
      (playAudio ⟨["a", "b"], VoiceState.playing, true⟩ PlayOutcome.eof).player.voiceState
        = VoiceState.notPlaying) ∧
    ((playAudio ⟨["a", "b"], VoiceState.playing, true⟩ PlayOutcome.eof).resignal = true ↔
      (playAudio ⟨["a", "b"], VoiceState.playing, true⟩ PlayOutcome.eof).player.voiceState
        = VoiceState.playing) :=
  eof_completion_resignal_or_idle ⟨["a", "b"], VoiceState.playing, true⟩ "a" ["b"] rfl rfl

/-- C4: evaluating the worker at a queue with a failed first track shows the
failed track is dropped without retry, but the worker neither re-signals nor
resets the state: the guild is left Playing with a pending track and even a
later enqueue sends no signal, so the queue is stuck. -/
theorem stream_error_stalls_queue :
    (playAudio ⟨["t1", "t2"], VoiceState.notPlaying, true⟩
        PlayOutcome.streamFailed).player.queue = ["t2"] ∧
    (playAudio ⟨["t1", "t2"], VoiceState.notPlaying, true⟩
        PlayOutcome.streamFailed).resignal = false ∧
    (playAudio ⟨["t1", "t2"], VoiceState.notPlaying, true⟩
        PlayOutcome.streamFailed).player.voiceState = VoiceState.playing ∧
    (enqueueVoiceline (playAudio ⟨["t1", "t2"], VoiceState.notPlaying, true⟩
        PlayOutcome.streamFailed).player "t3").2 = false := by
  decide

/-- C9: fetching a random audio name panics when the user's document holds an
empty track array (rand.Intn of zero), while an absent document propagates
the NotFound error (handled silently by voiceUpdate) and a missing array key
returns cleanly. -/
theorem empty_track_array_panics :
    retrieveRandomAudioName (GoOutcome.ok [(IntroArrayKey, FireVal.arr [])])
      WelcomeCollection 0 = GoOutcome.panicked ∧
    retrieveRandomAudioName (GoOutcome.err true) WelcomeCollection 0 = GoOutcome.err true ∧
    retrieveRandomAudioName (GoOutcome.ok []) WelcomeCollection 0 = GoOutcome.ok "" :=
  ⟨rfl, rfl, rfl⟩

/-- C8 counterexample: a component action on a message id with no registered
pagination state produces no interaction response at all (second component
none), contradicting the claim that the user receives a generic response. -/
theorem unknown_message_reply_counterexample :
    lookupMessage [] "m1" = none ∧
    (handleMessageComponent [] "m1" PageAction.next).2 = none ∧
    (handleMessageComponent [] "m1" PageAction.next).1 = [] := by
  decide

/-- C8 (amended): a component action on a message id with no registered
pagination state leaves the store unchanged and sends nothing to the user:
the lookup failure branch is a silent no-op. -/
theorem unknown_message_silent_ignore (store : List (String × PaginationState))
    (msgID : String) (a : PageAction) (h : lookupMessage store msgID = none) :
    handleMessageComponent store msgID a = (store, none) := by
  simp [handleMessageComponent, h]

/-- Witness for unknown_message_silent_ignore on an empty store. -/
theorem unknown_message_silent_ignore_witness :
    handleMessageComponent [] "m1" PageAction.next = ([], none) :=
  unknown_message_silent_ignore [] "m1" PageAction.next rfl

/-- Helper for C1: one step preserves the ledger equation
enqueuedLog = dequeuedLog ++ queue. -/
theorem guildStep_ledger (t : GuildTrace) (op : GuildOp)
    (h : t.enqueuedLog = t.dequeuedLog ++ t.player.queue) :
    (guildStep t op).enqueuedLog
      = (guildStep t op).dequeuedLog ++ (guildStep t op).player.queue := by
  cases op with
  | enqueueOp p =>
    simp [guildStep, enqueueVoiceline, h]
  | workerRun outcome =>
    cases hv : t.player.hasVoiceClient with
    | false => simp_all [guildStep, playAudio]
    | true =>
      cases hq : t.player.queue with
      | nil => simp_all [guildStep, playAudio]
      | cons p rest =>
        cases outcome <;> cases rest <;>
          simp_all [guildStep, playAudio, List.append_assoc]

/-- Helper for C1: any step other than a worker run that ends in an encode
failure appends the same track (or nothing) to the streamed and dequeued
ledgers, preserving streamedLog = dequeuedLog. -/
theorem guildStep_streams (t : GuildTrace) (op : GuildOp)
    (hop : op ≠ GuildOp.workerRun PlayOutcome.encodeFailed)
    (h : t.streamedLog = t.dequeuedLog) :
    (guildStep t op).streamedLog = (guildStep t op).dequeuedLog := by
  cases op with
  | enqueueOp p => simp [guildStep, h]
  | workerRun outcome =>
    cases hv : t.player.hasVoiceClient with
    | false => simp_all [guildStep, playAudio]
    | true =>
      cases hq : t.player.queue with
      | nil => simp_all [guildStep, playAudio]
      | cons p rest =>
        cases outcome <;> cases rest <;> simp_all [guildStep, playAudio]

/-- Helper for C1: the ledger equation holds after folding any operation
sequence. -/
theorem guildTrace_ledger (ops : List GuildOp) :
    ∀ t : GuildTrace, t.enqueuedLog = t.dequeuedLog ++ t.player.queue →
      (ops.foldl guildStep t).enqueuedLog
        = (ops.foldl guildStep t).dequeuedLog ++ (ops.foldl guildStep t).player.queue := by
  induction ops with
  | nil => intro t h; exact h
  | cons op rest ih =>
    intro t h
    exact ih (guildStep t op) (guildStep_ledger t op h)

/-- Helper for C1: streamedLog = dequeuedLog after folding any sequence free
of encode failures. -/
theorem guildTrace_streams (ops : List GuildOp) :
    (∀ op ∈ ops, op ≠ GuildOp.workerRun PlayOutcome.encodeFailed) →
    ∀ t : GuildTrace, t.streamedLog = t.dequeuedLog →
      (ops.foldl guildStep t).streamedLog = (ops.foldl guildStep t).dequeuedLog := by
  induction ops with
  | nil => intro _ t h; exact h
  | cons op rest ih =>
    intro hops t h
    exact ih (fun o ho => hops o (List.mem_cons_of_mem op ho)) (guildStep t op)
      (guildStep_streams t op (hops op (List.mem_cons_self op rest)) h)

/-- C1: over any interleaving of enqueues and playback-worker runs on one
guild, the enqueue ledger always equals the dequeue ledger followed by the
pending queue (each enqueue appends to the tail, each worker run removes
exactly the head), and, as long as no run fails at the encoder, the streamed
ledger equals the dequeue ledger; hence once the queue drains, the tracks
streamed are exactly the tracks enqueued, in FIFO order, each exactly once. -/
theorem playback_fifo_exactly_once (ops : List GuildOp) :
    ((ops.foldl guildStep initialGuildTrace).enqueuedLog
      = (ops.foldl guildStep initialGuildTrace).dequeuedLog
        ++ (ops.foldl guildStep initialGuildTrace).player.queue) ∧
    ((∀ op ∈ ops, op ≠ GuildOp.workerRun PlayOutcome.encodeFailed) →
      (ops.foldl guildStep initialGuildTrace).streamedLog
        = (ops.foldl guildStep initialGuildTrace).dequeuedLog) ∧
    ((∀ op ∈ ops, op ≠ GuildOp.workerRun PlayOutcome.encodeFailed) →
      (ops.foldl guildStep initialGuildTrace).player.queue = [] →
      (ops.foldl guildStep initialGuildTrace).streamedLog
        = (ops.foldl guildStep initialGuildTrace).enqueuedLog) := by
  refine ⟨guildTrace_ledger ops initialGuildTrace rfl,
    fun hops => guildTrace_streams ops hops initialGuildTrace rfl, ?_⟩
  intro hops hq
  have h1 := guildTrace_ledger ops initialGuildTrace rfl
  have h2 := guildTrace_streams ops hops initialGuildTrace rfl
  rw [h2, h1, hq, List.append_nil]

/-- Witness for playback_fifo_exactly_once: two greetings enqueued and played
to end-of-stream stream exactly the enqueued tracks in order. -/
theorem playback_fifo_exactly_once_witness :
    (([GuildOp.enqueueOp "a", GuildOp.workerRun PlayOutcome.eof,
        GuildOp.enqueueOp "b", GuildOp.workerRun PlayOutcome.eof].foldl
        guildStep initialGuildTrace).streamedLog
      = ([GuildOp.enqueueOp "a", GuildOp.workerRun PlayOutcome.eof,
          GuildOp.enqueueOp "b", GuildOp.workerRun PlayOutcome.eof].foldl
          guildStep initialGuildTrace).enqueuedLog) :=
  (playback_fifo_exactly_once
    [GuildOp.enqueueOp "a", GuildOp.workerRun PlayOutcome.eof,
     GuildOp.enqueueOp "b", GuildOp.workerRun PlayOutcome.eof]).2.2
    (by decide) (by decide)

/-- C2: the select-menu window recomputation: landing on page 0 shows
[0, min(4,total)); landing on the last of at least two pages shows
[total-remainder, total) with remainder that page's field count; a next step
onto a middle page slides the window forward from the stored bound by that
forward page's item count; a prev step onto a middle page slides the upper
bound back by exactly the field count of the page navigated away from; and in
the concrete 10-item scenario with pages sized [4,4,2], first gives [0,4),
next [4,8), next [8,10), and prev from the last page [4,8). -/
theorem select_window_laws :
    (let r1 := messageComponentStep demoDeleteState PageAction.first
     let r2 := messageComponentStep r1.state PageAction.next
     let r3 := messageComponentStep r2.state PageAction.next
     let r4 := messageComponentStep r3.state PageAction.prev
     r1.window = some (0, 4) ∧ r2.window = some (4, 8) ∧
       r3.window = some (8, 10) ∧ r4.window = some (4, 8)) ∧
    (∀ (counts : List Nat) (total bound : Int) (fwd : Bool),
      selectMenuWindow counts total 0 fwd bound = (0, min 4 total)) ∧
    (∀ (counts : List Nat) (total bound : Int) (fwd : Bool) (cp : Int),
      cp = (counts.length : Int) - 1 → ¬ cp = 0 → pageFieldsAt counts cp ≤ total →
      selectMenuWindow counts total cp fwd bound
        = (total - pageFieldsAt counts cp, total)) ∧
    (∀ (counts : List Nat) (total bound cp : Int),
      0 < cp → cp < (counts.length : Int) - 1 → pageFieldsAt counts cp = 4 →
      bound + 4 ≤ total →
      selectMenuWindow counts total cp true bound
        = (bound, bound + pageFieldsAt counts cp)) ∧
    (∀ (counts : List Nat) (total bound cp : Int),
      0 < cp → cp < (counts.length : Int) - 1 →
      bound - pageFieldsAt counts (cp + 1) ≤ total →
      selectMenuWindow counts total cp false bound
        = (bound - pageFieldsAt counts (cp + 1) - 4,
            bound - pageFieldsAt counts (cp + 1))) := by
  refine ⟨by decide, ?_, ?_, ?_, ?_⟩
  · intro counts total bound fwd
    have hm : ¬ (total < min 4 total) := by omega
    simp [selectMenuWindow, hm]
  · intro counts total bound fwd cp hcp hne hf
    subst hcp
    have hm : max 0 (total - pageFieldsAt counts ((counts.length : Int) - 1))
        = total - pageFieldsAt counts ((counts.length : Int) - 1) := by omega
    simp [selectMenuWindow, hne, hm]
  · intro counts total bound cp h0 h1 hf hb
    have hne : ¬ (cp = 0) := by omega
    have hne2 : ¬ (cp = (counts.length : Int) - 1) := by omega
    have hmin : min (bound + 4) total = bound + 4 := by omega
    have hcl : ¬ (total < bound + 4) := by omega
    simp [selectMenuWindow, hne, hne2, hmin, hcl, hf]
  · intro counts total bound cp h0 h1 hcl2
    have hne : ¬ (cp = 0) := by omega
    have hne2 : ¬ (cp = (counts.length : Int) - 1) := by omega
    have hcl : ¬ (total < bound - pageFieldsAt counts (cp + 1)) := by omega
    simp [selectMenuWindow, hne, hne2, hcl]

/-- Witness for select_window_laws at the 10-item, [4,4,2]-page layout. -/
theorem select_window_laws_witness :
    selectMenuWindow [4, 4, 2] 10 0 true 4 = (0, min 4 10) ∧
    selectMenuWindow [4, 4, 2] 10 2 true 10
      = (10 - pageFieldsAt [4, 4, 2] 2, 10) ∧
    selectMenuWindow [4, 4, 2] 10 1 true 4 = (4, 4 + pageFieldsAt [4, 4, 2] 1) ∧
    selectMenuWindow [4, 4, 2] 10 1 false 10
      = (10 - pageFieldsAt [4, 4, 2] 2 - 4, 10 - pageFieldsAt [4, 4, 2] 2) :=
  ⟨select_window_laws.2.1 [4, 4, 2] 10 4 true,
   select_window_laws.2.2.1 [4, 4, 2] 10 10 true 2 (by decide) (by decide) (by decide),
   select_window_laws.2.2.2.1 [4, 4, 2] 10 4 1 (by decide) (by decide) (by decide) (by decide),
   select_window_laws.2.2.2.2 [4, 4, 2] 10 10 1 (by decide) (by decide) (by decide)⟩

/-- Helper for C10: cleaning a rooted path never emits an empty, dot, or
dotdot component (rooted Clean drops leading dotdots and resolves the rest
against the accumulated stack). -/
theorem cleanComps_rooted_no_special (cs : List String) :
    ∀ acc : List String, (∀ c ∈ acc, c ≠ "" ∧ c ≠ "." ∧ c ≠ "..") →
      ∀ c ∈ cleanComps true acc cs, c ≠ "" ∧ c ≠ "." ∧ c ≠ ".." := by
  induction cs with
  | nil =>
    intro acc hacc c hc
    rw [cleanComps] at hc
    exact hacc c (List.mem_reverse.mp hc)
  | cons x rest ih =>
    intro acc hacc c hc
    simp only [cleanComps] at hc
    by_cases h1 : x = "" ∨ x = "."
    · rw [if_pos h1] at hc
      exact ih acc hacc c hc
    · rw [if_neg h1] at hc
      by_cases h2 : x = ".."
      · rw [if_pos h2] at hc
        cases hal : acc with
        | nil =>
          rw [hal] at hc
          dsimp only at hc
          rw [if_pos trivial] at hc
          exact ih [] (by intro c hc2; cases hc2) c hc
        | cons a as =>
          rw [hal] at hc
          dsimp only at hc
          have ha := hacc a (by rw [hal]; exact List.mem_cons_self a as)
          rw [if_neg ha.2.2] at hc
          exact ih as (fun d hd => hacc d (by rw [hal]; exact List.mem_cons_of_mem a hd)) c hc
      · rw [if_neg h2] at hc
        push_neg at h1
        refine ih (x :: acc) ?_ c hc
        intro d hd
        rcases List.mem_cons.mp hd with hdx | hdm
        · exact hdx ▸ ⟨h1.1, h1.2, h2⟩
        · exact hacc d hdm

/-- Helper for C10: a successful boolean prefix test exhibits the tail. -/
theorem isPrefixOf_gives_append (l₁ : List String) :
    ∀ l₂ : List String, l₁.isPrefixOf l₂ = true → ∃ t, l₂ = l₁ ++ t := by
  induction l₁ with
  | nil => intro l₂ _; exact ⟨l₂, rfl⟩
  | cons a as ih =>
    intro l₂ h
    cases l₂ with
    | nil => simp [List.isPrefixOf] at h
    | cons b bs =>
      rw [List.isPrefixOf, Bool.and_eq_true, beq_iff_eq] at h
      obtain ⟨t, ht⟩ := ih bs h.2
      exact ⟨t, by rw [← h.1, ht, List.cons_append]⟩

/-- C10: for a rooted destination directory, every file path returned by
Unzip lies strictly under the cleaned destination: it is rooted, extends the
cleaned destination components by a non-empty suffix, and, being a rooted
Clean output, contains no empty, dot, or dotdot component, so it cannot
denote anything outside the destination; entries whose joined path fails the
zip-slip prefix test never reach the returned list. -/
theorem unzip_paths_stay_under_dest (dest : GoPath) (entries : List ZipEntry)
    (hroot : dest.rooted = true) :
    ∀ p ∈ unzipPaths dest entries,
      p.rooted = true ∧
      (∃ suffix, suffix ≠ [] ∧ p.comps = (goClean dest).comps ++ suffix) ∧
      (∀ c ∈ p.comps, c ≠ "" ∧ c ≠ "." ∧ c ≠ "..") := by
  intro p hp
  rw [unzipPaths, List.mem_filterMap] at hp
  obtain ⟨e, _, hsome⟩ := hp
  simp only at hsome
  split_ifs at hsome with hchk hdir
  have hjoin : goJoin dest e.nameComps = p := Option.some.inj hsome
  have hchk2 : zipSlipCheck (goClean dest).comps (goJoin dest e.nameComps).comps = true := by
    cases hb : zipSlipCheck (goClean dest).comps (goJoin dest e.nameComps).comps
    · exact absurd hb hchk
    · rfl
  rw [zipSlipCheck, Bool.and_eq_true, Bool.and_eq_true, decide_eq_true_iff,
    decide_eq_true_iff] at hchk2
  obtain ⟨⟨hne, hpre⟩, hneq⟩ := hchk2
  obtain ⟨t, ht⟩ := isPrefixOf_gives_append _ _ hpre
  have hproot : p.rooted = true := by
    rw [← hjoin, goJoin, goClean, hroot]
  have hcomps : p.comps = cleanComps true [] (dest.comps ++ e.nameComps) := by
    rw [← hjoin, goJoin, goClean, hroot]
  refine ⟨hproot, ⟨t, ?_, by rw [← hjoin]; exact ht⟩, ?_⟩
  · intro htnil
    rw [htnil, List.append_nil] at ht
    exact hneq (hjoin ▸ ht)
  · rw [hcomps]
    exact cleanComps_rooted_no_special (dest.comps ++ e.nameComps) []
      (by intro c hc; cases hc)

/-- Witness for unzip_paths_stay_under_dest: extracting an archive holding a
plain entry and a traversal entry into /tmp/work keeps the returned path
under the destination. -/
theorem unzip_paths_stay_under_dest_witness :
    (GoPath.mk true ["tmp", "work", "a.mp3"]).rooted = true ∧
    (∃ suffix, suffix ≠ [] ∧ (GoPath.mk true ["tmp", "work", "a.mp3"]).comps
      = (goClean ⟨true, ["tmp", "work"]⟩).comps ++ suffix) ∧
    (∀ c ∈ (GoPath.mk true ["tmp", "work", "a.mp3"]).comps,
      c ≠ "" ∧ c ≠ "." ∧ c ≠ "..") :=
  unzip_paths_stay_under_dest ⟨true, ["tmp", "work"]⟩
    [⟨["a.mp3"], false⟩, ⟨["..", "evil"], false⟩] rfl
    ⟨true, ["tmp", "work", "a.mp3"]⟩ (by decide)
